import Mathlib

/-!
Shallow embedding of the VocalParam real-time audio engine
(`src/core/audio_engine.py`, constants from `src/utils/constants.py`),
with theorems checking the specification's claims about it.

Conventions: Python floats are modelled as rationals (`ℚ`) where the code
only moves samples around, and as reals (`ℝ`) where transcendental
functions (`sin`, `exp`) appear; `numpy` arrays are Lean lists; the
`sounddevice` hardware layer is an explicit environment record of
success/failure oracles; exceptions are a `Bool` "raised" component.
-/

namespace VocalParam

/-! ## Constants (`src/utils/constants.py`) -/

def SAMPLE_RATE : ℕ := 44100

def CHANNELS : ℕ := 1

def PRO_DEVICE_KEYWORDS : List String :=
  ["ASIO", "UMC", "Focusrite", "Yamaha", "Steinberg", "RME", "Audient"]

/-- `API_PRIORITY` dict, in insertion order (Python dicts iterate in
insertion order). -/
def API_PRIORITY : List (String × ℕ) :=
  [("ASIO", 100), ("Windows WDM-KS", 80), ("Windows WASAPI", 60), ("MME", 20)]

/-! ## Substring matching

Python's `kw in name` is a case-sensitive substring test; we model strings
as their character lists. -/

/-- `needle` occurs as a contiguous substring of the second argument. -/
def isSub (needle : List Char) : List Char → Bool
  | [] => needle.isEmpty
  | c :: rest => needle.isPrefixOf (c :: rest) || isSub needle rest

/-- `kw in s` for Python strings. -/
def strIn (needle hay : String) : Bool := isSub needle.toList hay.toList

/-! ## DeviceScorer (`AudioEngine.DeviceScorer.score`) -/

/-- The fields of the `device_info` dict that `score` reads. -/
structure DeviceInfo where
  name : String
  api : String
  inputs : ℕ
deriving DecidableEq

/-- `DeviceScorer.score`: API-priority points for every key occurring in the
API name, +30 per professional-hardware keyword occurring in the device
name, +10 when the device has at least 2 input channels. -/
def score (d : DeviceInfo) : ℕ :=
  let s := API_PRIORITY.foldl
    (fun acc p => if strIn p.1 d.api then acc + p.2 else acc) 0
  let s := PRO_DEVICE_KEYWORDS.foldl
    (fun acc kw => if strIn kw d.name then acc + 30 else acc) s
  if 2 ≤ d.inputs then s + 10 else s

/-- The host-API weight contribution of `score` alone. -/
def apiWeight (d : DeviceInfo) : ℕ :=
  API_PRIORITY.foldl (fun acc p => if strIn p.1 d.api then acc + p.2 else acc) 0

/-- Number of professional-hardware keywords matching the device name. -/
def keywordMatches (d : DeviceInfo) : ℕ :=
  (PRO_DEVICE_KEYWORDS.filter (fun kw => strIn kw d.name)).length

/-! ## Sample-rate candidate list (`_scan_and_open_stream`, lines 385-390)

```python
sample_rates = []
if self._active_sr: sample_rates.append(self._active_sr)
if native_sr not in sample_rates: sample_rates.append(native_sr)
for sr in [44100, 48000]:
    if sr not in sample_rates: sample_rates.append(sr)
```
-/

/-- The candidate sample-rate list built by `_scan_and_open_stream` for a
last-used rate `p` (`self._active_sr`, appended only when truthy, i.e.
nonzero) and device native rate `n`. -/
def srCandidates (p n : ℕ) : List ℕ :=
  let l := if p ≠ 0 then [p] else []
  let l := if n ∈ l then l else l ++ [n]
  let l := if 44100 ∈ l then l else l ++ [44100]
  if 48000 ∈ l then l else l ++ [48000]

/-- Order-preserving de-duplication keeping the first occurrence
(the spec's "de-duplicated, preference-ordered" list). -/
def dedupFirst (l : List ℕ) : List ℕ :=
  (l.foldl (fun acc x => if x ∈ acc then acc else acc ++ [x]) [])

/-! ## ScopeBuffer writes (monitoring/duplex capture callback, lines 353-359)

```python
shift = len(data)
if shift < self._scope_buffer_size:
    self._scope_buffer = np.roll(self._scope_buffer, -shift)
    self._scope_buffer[-shift:] = data
else:
    self._scope_buffer = data[-self._scope_buffer_size:]
```
`np.roll(buf, -shift)` followed by overwriting the last `shift` slots with
`data` is `buf.drop shift ++ data` for a buffer of length `N > shift`. -/

/-- One capture-callback write of a batch into the scope buffer. -/
def scopeWrite (N : ℕ) (buf data : List ℚ) : List ℚ :=
  if data.length < N then buf.drop data.length ++ data
  else data.drop (data.length - N)

/-- The pre-zeroed scope buffer (`np.zeros(self._scope_buffer_size)`). -/
def scopeClear (N : ℕ) : List ℚ := List.replicate N 0

/-! ## Duplex output path (`duplex_callback`, lines 461-473)

```python
outdata.fill(0)
with self._click_lock:
    if self._click_to_play is not None:
        remaining = len(self._click_to_play) - self._click_ptr
        to_copy = min(frames, remaining)
        click_chunk = self._click_to_play[self._click_ptr : self._click_ptr + to_copy]
        for c in range(outdata.shape[1]):
            outdata[:to_copy, c] = click_chunk
        self._click_ptr += to_copy
        if self._click_ptr >= len(self._click_to_play):
            self._click_to_play = None
            self._click_ptr = 0
```
The armed click is the pair `(self._click_to_play, self._click_ptr)`;
`outdata` is the list of `frames` rows, each of `nch` channel samples. -/

/-- Armed-click state: `(click_to_play, click_ptr)`. -/
structure ClickState where
  toPlay : Option (List ℝ)
  ptr : ℕ

/-- The output block and new armed-click state produced by the output path
of one `duplex_callback` invocation delivering `frames` frames on `nch`
output channels. -/
def clickOut (frames nch : ℕ) (st : ClickState) :
    List (List ℝ) × ClickState :=
  match st.toPlay with
  | none => (List.replicate frames (List.replicate nch 0), st)
  | some c =>
    let remaining := c.length - st.ptr
    let toCopy := min frames remaining
    let out := (List.range frames).map fun i =>
      if i < toCopy then List.replicate nch (c.getD (st.ptr + i) 0)
      else List.replicate nch 0
    let p := st.ptr + toCopy
    if c.length ≤ p then (out, ⟨none, 0⟩) else (out, ⟨some c, p⟩)

/-- Outputs of `k` consecutive duplex callbacks, oldest first. -/
def clickOutN (frames nch : ℕ) : ℕ → ClickState → List (List (List ℝ)) × ClickState
  | 0, st => ([], st)
  | k + 1, st =>
    let (o, st') := clickOut frames nch st
    let (os, st'') := clickOutN frames nch k st'
    (o :: os, st'')

/-! ## PCM file sink/source (`save_wav` / `load_wav`)

`save_wav`: `audio_pcm = (data * 32767).astype(np.int16)` — float→int16
`astype` truncates toward zero and wraps modulo 2^16 when out of range.
`load_wav`: `np.frombuffer(data, dtype=np.int16).astype(np.float32) / 32767.0`. -/

/-- Truncation toward zero (C / numpy float→int cast). -/
def ratTrunc (q : ℚ) : ℤ := if 0 ≤ q then ⌊q⌋ else ⌈q⌉

/-- Reduction of an integer into int16 range by wrap-around (two's
complement, as `astype(np.int16)` does for out-of-range values). -/
def wrap16 (z : ℤ) : ℤ := (z + 32768) % 65536 - 32768

/-- One sample through the PCM sink: scale by 32767 and cast to int16. -/
def pcmEncode (x : ℚ) : ℤ := wrap16 (ratTrunc (x * 32767))

/-- One sample through the PCM source: int16 divided by 32767. -/
def pcmDecode (z : ℤ) : ℚ := (z : ℚ) / 32767

/-- `save_wav`'s conversion of a whole float buffer to 16-bit PCM. -/
def saveWavPcm (data : List ℚ) : List ℤ := data.map pcmEncode

/-- `load_wav`'s conversion of 16-bit PCM back to a float buffer. -/
def loadWavFloat (pcm : List ℤ) : List ℚ := pcm.map pcmDecode

/-! ## Click Synthesizer (`_generate_professional_click`, lines 226-281)

`n_samples = int(self._sample_rate * duration)` — Python `int()` truncates
toward zero (floor, for the positive products that occur here).
`np.random.randn` is modelled as an arbitrary noise function `ν : ℕ → ℝ`.
`np.linspace(0, 1, m)` (endpoint `True`) at index `j` is `j / (m - 1)` for
`m ≥ 2` and `0` for `m = 1`. -/

/-- `int(sample_rate * duration)`: the generated buffer's sample count. -/
def nSamples (r : ℕ) (d : ℚ) : ℕ := (⌊(r : ℚ) * d⌋).toNat

/-- Value of `np.linspace(0, 1, m)` at index `j`. -/
noncomputable def lin01 (m j : ℕ) : ℝ := if m ≤ 1 then 0 else (j : ℝ) / ((m : ℝ) - 1)

/-- `attack_samples = int(n_samples * 0.05)`. -/
def clickAttack (n : ℕ) : ℕ := n * 5 / 100

/-- `decay_samples = int(n_samples * 0.15)`. -/
def clickDecay (n : ℕ) : ℕ := n * 15 / 100

/-- `release_start = int(n_samples * 0.70)`. -/
def clickRelStart (n : ℕ) : ℕ := n * 70 / 100

/-- The ADSR envelope value at sample `i` of an `n`-sample click.  The
release slice `envelope[release_start:]` is written last in the source, so
it takes precedence for `i ≥ release_start`; attack, decay and sustain
write the disjoint earlier slices. -/
noncomputable def clickEnv (n i : ℕ) : ℝ :=
  let a := clickAttack n
  let dc := clickDecay n
  let rs := clickRelStart n
  if rs ≤ i then 0.6 * Real.exp (-5 * lin01 (n - rs) (i - rs))
  else if i < a then lin01 a i
  else if i < a + dc then 1.0 - (1.0 - 0.6) * (1 - Real.exp (-3 * lin01 dc (i - a)))
  else 0.6

/-- `signal = sine + noise`: sine carrier at `freq` over
`t = np.linspace(0, duration, n_samples, False)` plus the 5%-scaled noise
component. -/
noncomputable def clickSignal (freq : ℝ) (d : ℚ) (n : ℕ) (ν : ℕ → ℝ) (i : ℕ) : ℝ :=
  Real.sin (freq * ((d : ℝ) * i / n) * 2 * Real.pi) + ν i * 0.05

/-- `click = signal * envelope * volume` before normalization. -/
noncomputable def clickRaw (freq : ℝ) (d : ℚ) (vol : ℝ) (r : ℕ) (ν : ℕ → ℝ) (i : ℕ) : ℝ :=
  clickSignal freq d (nSamples r d) ν i * clickEnv (nSamples r d) i * vol

/-- `max_val = np.max(np.abs(click))` (0 for an empty buffer). -/
noncomputable def clickPeak (freq : ℝ) (d : ℚ) (vol : ℝ) (r : ℕ) (ν : ℕ → ℝ) : ℝ :=
  ((List.range (nSamples r d)).map fun i => |clickRaw freq d vol r ν i|).foldr max 0

/-- `_generate_professional_click(freq, duration, volume)` at sample rate
`r` with noise source `ν`: the raw ADSR click, peak-normalized to `volume`
whenever its peak is positive. -/
noncomputable def professionalClick (freq : ℝ) (d : ℚ) (vol : ℝ) (r : ℕ) (ν : ℕ → ℝ) : List ℝ :=
  let n := nSamples r d
  let M := clickPeak freq d vol r ν
  if 0 < M then (List.range n).map fun i => clickRaw freq d vol r ν i / M * vol
  else (List.range n).map fun i => clickRaw freq d vol r ν i

/-! ## Engine state and hardware environment

`EngineState` mirrors the mutable fields of `AudioEngine.__init__` that the
lifecycle methods below read or write; streams are represented by their
negotiated `(sample_rate, channels)` pair, `None` by `Option.none`.  The
`sounddevice` layer is an explicit `Env` of query results and open-attempt
outcomes (an open attempt either succeeds or throws; the code catches every
throw, so a `Bool` suffices). -/

structure EngineState where
  sample_rate : ℕ
  channels : ℕ
  is_recording : Bool
  recording_data : List (List ℚ)
  input_device : Option ℕ
  output_device : Option ℕ
  active_sr : ℕ
  active_channels : ℕ
  monitoring_stream : Option (ℕ × ℕ)
  current_level : ℚ
  is_monitoring : Bool
  is_closing : Bool
  click_sample : List ℝ
  click_accent : List ℝ
  click_countin : List ℝ
  scope_buffer : List ℚ
  click_to_play : Option (List ℝ)
  click_ptr : ℕ
  stream : Option (ℕ × ℕ)

structure Env where
  /-- `sd.query_devices(device_id)`: `(default_samplerate, max_input_channels)`,
  `none` when the query throws. -/
  queryDevice : ℕ → Option (ℕ × ℕ)
  /-- Whether `sd.InputStream(samplerate, channels, device).start()` succeeds. -/
  inputOpen : ℕ → ℕ → ℕ → Bool
  /-- `int(sd.query_devices(self.output_device, 'output')['default_samplerate'])`,
  `none` when the query throws. -/
  queryOutputNative : Option ℕ
  /-- Whether the duplex `sd.Stream(samplerate=sr, ...).start()` succeeds. -/
  duplexOpen : ℕ → Bool

/-- `stop_monitoring` (lines 325-339): clear the monitoring flag, release
the monitoring stream if present (exceptions swallowed, handle nulled in
`finally`), zero the level.  The driver-release sleep has no state
effect. -/
def stopMonitoring (s : EngineState) : EngineState :=
  let s := { s with is_monitoring := false }
  let s := if s.monitoring_stream.isSome then { s with monitoring_stream := none } else s
  { s with current_level := 0 }

/-- `_scan_and_open_stream` (lines 375-406): query the device, build the
rate and channel candidate lists, try each `(rate, channel)` pair in nested
order, park the first successful stream in `self._stream` and return
`(True, sr, ch)`; on query failure or exhaustion return `(False, 0, 0)`
without raising. -/
def scanAndOpenStream (env : Env) (device : ℕ) (s : EngineState) :
    (Bool × ℕ × ℕ) × EngineState :=
  match env.queryDevice device with
  | none => ((false, 0, 0), s)
  | some (native, maxIn) =>
    let rates := srCandidates s.active_sr native
    let chans := [s.channels] ++ (if 2 ≤ maxIn then [2] else [])
    let pairs := rates.flatMap fun sr => chans.map fun ch => (sr, ch)
    match pairs.find? (fun pr => env.inputOpen device pr.1 pr.2) with
    | some (sr, ch) => ((true, sr, ch), { s with stream := some (sr, ch) })
    | none => ((false, 0, 0), s)

/-- `start_monitoring` (lines 344-370): unconditionally stop any previous
monitoring, resolve the target device, scan; on success promote the scanned
stream to the monitoring stream and record the negotiated config; on
failure return silently.  The `Bool` component records whether an exception
propagates to the caller; every path of the source returns normally
(`stop_monitoring` and `_scan_and_open_stream` swallow their exceptions and
the method has no `raise`), so it is `false` on every path.
`resolveDevice` is
`target_device = device_id if device_id is not None else self.input_device`. -/
def resolveDevice (deviceId : Option ℕ) (s : EngineState) : Option ℕ :=
  match deviceId with
  | some d => some d
  | none => s.input_device

def startMonitoring (env : Env) (deviceId : Option ℕ) (s : EngineState) :
    EngineState × Bool :=
  let s := stopMonitoring s
  match resolveDevice deviceId s with
  | none => (s, false)
  | some d =>
    let (r, s) := scanAndOpenStream env d s
    if r.1 then
      ({ s with monitoring_stream := s.stream, stream := none,
                is_monitoring := true, active_sr := r.2.1,
                active_channels := r.2.2 }, false)
    else (s, false)

/-- The de-duplicated duplex sample-rate list of `start_recording`
(lines 476-487): `[active_sr, 44100, 48000]` with the output device's
native rate inserted at position 1 when its query succeeds, first
occurrences kept. -/
def duplexCandidates (outNative : Option ℕ) (activeSr : ℕ) : List ℕ :=
  dedupFirst (match outNative with
    | some n => [activeSr, n, 44100, 48000]
    | none => [activeSr, 44100, 48000])

/-- `start_recording` (lines 426-527): early-return when already
recording; otherwise stop monitoring, reset the accumulator and the armed
click, set the recording flag, and try each duplex candidate rate (closing
any stale handle before each attempt).  The first success keeps the duplex
stream and its rate; exhaustion clears the recording flag, calls
`start_monitoring()` to re-enable the monitor, and raises (`Bool` result
`true` = exception propagated to the caller). -/
def startRecording (env : Env) (s : EngineState) : EngineState × Bool :=
  if s.is_recording then (s, false)
  else
    let s := stopMonitoring s
    let s := { s with recording_data := [], is_recording := true,
                      click_to_play := none, click_ptr := 0 }
    let srToTry := duplexCandidates env.queryOutputNative s.active_sr
    let s := { s with stream := none }
    match srToTry.find? (fun sr => env.duplexOpen sr) with
    | some sr => ({ s with stream := some (sr, 2), active_sr := sr }, false)
    | none =>
      let s := { s with is_recording := false }
      ((startMonitoring env none s).1, true)

/-- `_regenerate_clicks` (lines 408-416): pick the active hardware rate
(falling back to the configured rate when the active one is 0/falsy),
temporarily install it as `self._sample_rate`, regenerate the three click
buffers at it, and restore the configured rate.  The three fresh
`np.random.randn` draws are the noise sources `ν1 ν2 ν3`. -/
noncomputable def regenerateClicks (ν1 ν2 ν3 : ℕ → ℝ) (s : EngineState) : EngineState :=
  let sr := if s.active_sr ≠ 0 then s.active_sr else s.sample_rate
  let old := s.sample_rate
  let s := { s with sample_rate := sr }
  let s := { s with click_sample := professionalClick 1500 0.012 0.25 s.sample_rate ν1 }
  let s := { s with click_accent := professionalClick 2000 0.012 0.35 s.sample_rate ν2 }
  let s := { s with click_countin := professionalClick 1000 0.012 0.20 s.sample_rate ν3 }
  { s with sample_rate := old }

/-- The engine state `__init__` leaves behind (modulo the three concrete
noise draws, taken as zero here), used as a concrete state by witnesses. -/
noncomputable def initState : EngineState where
  sample_rate := SAMPLE_RATE
  channels := CHANNELS
  is_recording := false
  recording_data := []
  input_device := none
  output_device := none
  active_sr := SAMPLE_RATE
  active_channels := CHANNELS
  monitoring_stream := none
  current_level := 0
  is_monitoring := false
  is_closing := false
  click_sample := professionalClick 1500 0.012 0.25 SAMPLE_RATE fun _ => 0
  click_accent := professionalClick 2000 0.012 0.35 SAMPLE_RATE fun _ => 0
  click_countin := professionalClick 1000 0.012 0.20 SAMPLE_RATE fun _ => 0
  scope_buffer := scopeClear 2048
  click_to_play := none
  click_ptr := 0
  stream := none

/-! ## Helper lemmas -/

theorem dedupFirst_step_nodup (acc : List ℕ) (x : ℕ) (h : acc.Nodup) :
    (if x ∈ acc then acc else acc ++ [x]).Nodup := by
  split
  · exact h
  · next hx => simp [List.nodup_append, h, hx]

theorem dedupFirst_go_nodup (l : List ℕ) :
    ∀ acc : List ℕ, acc.Nodup →
      (l.foldl (fun acc x => if x ∈ acc then acc else acc ++ [x]) acc).Nodup := by
  induction l with
  | nil => intro acc h; simpa using h
  | cons a t ih =>
    intro acc h
    simpa using ih _ (dedupFirst_step_nodup acc a h)

theorem dedupFirst_nodup (l : List ℕ) : (dedupFirst l).Nodup :=
  dedupFirst_go_nodup l [] List.nodup_nil

theorem scopeWrite_length (N : ℕ) (buf data : List ℚ) (h : buf.length = N) :
    (scopeWrite N buf data).length = N := by
  unfold scopeWrite
  split <;> simp [h] <;> omega

theorem scopeWrite_foldl_length (N : ℕ) (batches : List (List ℚ)) :
    ∀ buf : List ℚ, buf.length = N →
      (batches.foldl (scopeWrite N) buf).length = N := by
  induction batches with
  | nil => intro buf h; simpa using h
  | cons b bs ih =>
    intro buf h
    simpa using ih _ (scopeWrite_length N buf b h)

theorem ratTrunc_err (q : ℚ) : |q - (ratTrunc q : ℚ)| ≤ 1 := by
  have h1 := Int.floor_le q
  have h2 := Int.lt_floor_add_one q
  have h3 := Int.le_ceil q
  have h4 := Int.ceil_lt_add_one q
  unfold ratTrunc
  split <;> rw [abs_sub_le_iff] <;> constructor <;> linarith

theorem ratTrunc_bound (q : ℚ) (h1 : -32767 ≤ q) (h2 : q ≤ 32767) :
    -32767 ≤ ratTrunc q ∧ ratTrunc q ≤ 32767 := by
  unfold ratTrunc
  split
  · constructor
    · rw [Int.le_floor]; push_cast; linarith
    · have : ⌊q⌋ < 32768 := Int.floor_lt.2 (by push_cast; linarith)
      omega
  · constructor
    · rw [Int.le_ceil_iff]; push_cast; linarith
    · rw [Int.ceil_le]; push_cast; linarith

theorem wrap16_eq (z : ℤ) (h1 : -32768 ≤ z) (h2 : z < 32768) : wrap16 z = z := by
  unfold wrap16
  rw [Int.emod_eq_of_lt (by omega) (by omega)]
  omega

theorem pcm_sample_roundtrip (x : ℚ) (h : |x| ≤ 1) :
    |x - pcmDecode (pcmEncode x)| ≤ 1 / 32767 := by
  obtain ⟨hx1, hx2⟩ := abs_le.1 h
  have hq1 : -32767 ≤ x * 32767 := by linarith
  have hq2 : x * 32767 ≤ 32767 := by linarith
  obtain ⟨hb1, hb2⟩ := ratTrunc_bound (x * 32767) hq1 hq2
  unfold pcmEncode pcmDecode
  rw [wrap16_eq _ (by omega) (by omega)]
  have hrw : x - (ratTrunc (x * 32767) : ℚ) / 32767 =
      (x * 32767 - (ratTrunc (x * 32767) : ℚ)) / 32767 := by ring
  rw [hrw, abs_div, abs_of_pos (by norm_num : (0:ℚ) < 32767)]
  exact (div_le_div_iff_of_pos_right (by norm_num)).2 (ratTrunc_err (x * 32767))

theorem foldl_count_30 (P : String → Bool) (L : List String) :
    ∀ s : ℕ, L.foldl (fun acc kw => if P kw then acc + 30 else acc) s
      = s + 30 * (L.filter P).length := by
  induction L with
  | nil => simp
  | cons a t ih =>
    intro s
    by_cases h : P a <;> simp [h, ih, List.filter_cons] <;> try ring

/-- `stop_monitoring` in one record update: clears the monitoring flag,
nulls the stream handle, zeroes the level, and touches nothing else. -/
theorem stopMonitoring_eq (s : EngineState) :
    stopMonitoring s =
      { s with is_monitoring := false, monitoring_stream := none,
               current_level := 0 } := by
  obtain ⟨_, _, _, _, _, _, _, _, ms, _, _, _, _, _, _, _, _, _, _⟩ := s
  cases ms <;> rfl

/-- The two result shapes of `_scan_and_open_stream`: failure touches
nothing, success parks the accepted config in `self._stream` (and the
successful pair passed the open attempt). -/
theorem scanAndOpenStream_cases (env : Env) (d : ℕ) (s : EngineState) :
    scanAndOpenStream env d s = ((false, 0, 0), s) ∨
    ∃ sr ch, env.inputOpen d sr ch = true ∧
      scanAndOpenStream env d s =
        ((true, sr, ch), { s with stream := some (sr, ch) }) := by
  unfold scanAndOpenStream
  split
  · exact Or.inl rfl
  · split <;> (dsimp only; split)
    all_goals
      first
        | exact Or.inl rfl
        | (next sr ch heq =>
            exact Or.inr ⟨sr, ch, by simpa using List.find?_some heq, rfl⟩)

/-- `_scan_and_open_stream` on a device whose every open attempt fails:
returns `(False, 0, 0)` and leaves the state untouched. -/
theorem scanAndOpenStream_exhaustion (env : Env) (d : ℕ) (s : EngineState)
    (hfail : ∀ sr ch, env.inputOpen d sr ch = false) :
    scanAndOpenStream env d s = ((false, 0, 0), s) := by
  rcases scanAndOpenStream_cases env d s with h | ⟨sr, ch, hopen, _⟩
  · exact h
  · rw [hfail sr ch] at hopen
    cases hopen

/-- `start_monitoring` never raises and never touches the recording state:
the recording flag, accumulator and armed click are preserved, and a null
duplex handle stays null. -/
theorem startMonitoring_frame (env : Env) (dId : Option ℕ) (s : EngineState) :
    (startMonitoring env dId s).1.is_recording = s.is_recording ∧
    (startMonitoring env dId s).1.recording_data = s.recording_data ∧
    (startMonitoring env dId s).1.click_to_play = s.click_to_play ∧
    (startMonitoring env dId s).1.click_ptr = s.click_ptr ∧
    (s.stream = none → (startMonitoring env dId s).1.stream = none) ∧
    (startMonitoring env dId s).2 = false := by
  unfold startMonitoring
  rcases hd : resolveDevice dId (stopMonitoring s) with _ | d
  · simp only [hd]
    rw [stopMonitoring_eq]
    exact ⟨rfl, rfl, rfl, rfl, fun h => h, by trivial⟩
  · simp only [hd]
    rcases scanAndOpenStream_cases env d (stopMonitoring s) with hsc | ⟨sr, ch, _, hsc⟩
    · simp only [hsc]
      rw [stopMonitoring_eq]
      exact ⟨rfl, rfl, rfl, rfl, fun h => h, by trivial⟩
    · simp only [hsc]
      rw [stopMonitoring_eq]
      exact ⟨rfl, rfl, rfl, rfl, fun _ => rfl, by trivial⟩

/-- One armed duplex callback in closed form: the output block carries the
next `min frames remaining` click samples on every channel followed by
silence, the cursor advances by exactly that amount, and the armed click is
cleared exactly when the cursor reaches the buffer length. -/
theorem clickOut_armed (frames nch : ℕ) (c : List ℝ) (p : ℕ) (hp : p ≤ c.length) :
    clickOut frames nch ⟨some c, p⟩ =
      ((List.range frames).map fun i =>
        if i < min frames (c.length - p) then List.replicate nch (c.getD (p + i) 0)
        else List.replicate nch 0,
       if p + min frames (c.length - p) = c.length then ⟨none, 0⟩
       else ⟨some c, p + min frames (c.length - p)⟩) := by
  have hmin := Nat.min_le_right frames (c.length - p)
  unfold clickOut
  dsimp only
  split
  · next h => rw [if_pos (by omega)]
  · next h => rw [if_neg (by omega)]

/-- Unfolding one step of `clickOutN` through a computed callback result. -/
theorem clickOutN_succ (frames nch k : ℕ) (st : ClickState)
    (o : List (List ℝ)) (st' : ClickState)
    (h : clickOut frames nch st = (o, st')) :
    clickOutN frames nch (k + 1) st =
      (o :: (clickOutN frames nch k st').1, (clickOutN frames nch k st').2) := by
  have hstep : clickOutN frames nch (k + 1) st =
      match clickOut frames nch st with
      | (o, st') =>
        match clickOutN frames nch k st' with
        | (os, st'') => (o :: os, st'') := rfl
  rw [hstep, h]

theorem professionalClick_length (f : ℝ) (d : ℚ) (v : ℝ) (r : ℕ) (ν : ℕ → ℝ) :
    (professionalClick f d v r ν).length = nSamples r d := by
  unfold professionalClick
  dsimp only
  split <;> simp

theorem le_foldr_max (l : List ℝ) (x : ℝ) (hx : x ∈ l) : x ≤ l.foldr max 0 := by
  induction l with
  | nil => cases hx
  | cons a t ih =>
    rcases List.mem_cons.1 hx with rfl | h
    · exact le_max_left _ _
    · exact (ih h).trans (le_max_right _ _)

theorem foldr_max_map_mul (l : List ℝ) (c : ℝ) (hc : 0 ≤ c) :
    ((l.map fun x => x * c).foldr max 0) = (l.foldr max 0) * c := by
  induction l with
  | nil => simp
  | cons a t ih =>
    simp only [List.map_cons, List.foldr_cons, ih]
    rw [max_mul_of_nonneg _ _ hc]

theorem getD_map_range (n i : ℕ) (h : i < n) (g : ℕ → ℝ) :
    ((List.range n).map g).getD i 0 = g i := by
  rw [List.getD_eq_getElem?_getD, List.getElem?_map, List.getElem?_range h]
  rfl

/-- `0.6 · e⁻⁵ < 1/100`: the release envelope's value at the final sample
is below one percent of full scale. -/
theorem releaseTail_small : (0.6 : ℝ) * Real.exp (-5) < 1 / 100 := by
  have h1 : (2.7 : ℝ) < Real.exp 1 :=
    lt_trans (by norm_num) Real.exp_one_gt_d9
  have h5 : (60 : ℝ) < Real.exp 5 := by
    have he : Real.exp 5 = Real.exp 1 ^ (5 : ℕ) := by
      rw [← Real.exp_nat_mul]
      norm_num
    rw [he]
    calc (60 : ℝ) < 2.7 ^ (5 : ℕ) := by norm_num
      _ ≤ Real.exp 1 ^ (5 : ℕ) := pow_le_pow_left₀ (by norm_num) h1.le 5
  rw [Real.exp_neg]
  have hinv : (Real.exp 5)⁻¹ < (60 : ℝ)⁻¹ := inv_strictAnti₀ (by norm_num) h5
  nlinarith

/-- C3 counterexample: at `r = 1000`, `d = 0.0017` the product `r·d = 1.7`
is truncated by `int()` to 1, whereas the claimed `round(r·d)` is 2 — the
generated buffer has length 1, not 2. -/
theorem professionalClick_length_cex :
    (professionalClick 0 (17/10000) 1 1000 fun _ => 0).length = 1 ∧
    nSamples 1000 (17/10000) = 1 ∧
    round ((1000 : ℚ) * (17/10000)) = 2 := by
  refine ⟨?_, ?_, ?_⟩
  · rw [professionalClick_length]
    norm_num [nSamples]
  · norm_num [nSamples]
  · rw [round_eq]
    norm_num

/-! ## Claim theorems -/

/-- C4: the sample-rate candidate list tried by `_scan_and_open_stream` for
a (positive) last-used rate `p` and native rate `n` is exactly the
first-occurrence de-duplication of `[p, n, 44100, 48000]`; it has no
repeats, and for `p = 44100`, `n = 48000` it is exactly `[44100, 48000]`. -/
theorem srCandidates_is_dedup_pref (p n : ℕ) (hp : 0 < p) :
    srCandidates p n = dedupFirst [p, n, 44100, 48000] ∧
    (srCandidates p n).Nodup ∧
    srCandidates 44100 48000 = [44100, 48000] := by
  have heq : srCandidates p n = dedupFirst [p, n, 44100, 48000] := by
    simp [srCandidates, dedupFirst, hp.ne']
  exact ⟨heq, heq ▸ dedupFirst_nodup _, by decide⟩

/-- C4 witness: `p = 44100`, `n = 48000`. -/
theorem srCandidates_is_dedup_pref_witness :
    0 < 44100 ∧ srCandidates 44100 48000 = dedupFirst [44100, 48000, 44100, 48000] :=
  ⟨by decide, (srCandidates_is_dedup_pref 44100 48000 (by decide)).1⟩

/-- C8: across any sequence of capture-callback writes the scope buffer's
length stays exactly `N`; a batch shorter than `N` rolls the buffer left by
the batch length and appends the batch, a batch of at least `N` replaces
the contents with the batch's last `N` samples; and the cleared buffer has
length `N` with every sample equal to 0. -/
theorem scopeBuffer_invariants (N : ℕ) (buf : List ℚ) (batches : List (List ℚ))
    (h : buf.length = N) :
    (batches.foldl (scopeWrite N) buf).length = N ∧
    (∀ data : List ℚ, data.length < N →
      scopeWrite N buf data = buf.drop data.length ++ data) ∧
    (∀ data : List ℚ, N ≤ data.length →
      scopeWrite N buf data = data.drop (data.length - N)) ∧
    (scopeClear N).length = N ∧
    (∀ i, i < N → (scopeClear N).getD i 0 = 0) := by
  refine ⟨scopeWrite_foldl_length N batches buf h, ?_, ?_, by simp [scopeClear], ?_⟩
  · intro data hd
    unfold scopeWrite
    rw [if_pos hd]
  · intro data hd
    unfold scopeWrite
    rw [if_neg (Nat.not_lt.2 hd)]
  · intro i hi
    simp [scopeClear, List.getD, List.getElem?_replicate, hi]

/-- C8 witness: the default 2048-sample buffer, written with batches of
sizes 3 and 5000. -/
theorem scopeBuffer_invariants_witness :
    (scopeClear 2048).length = 2048 ∧
    ([[1, 2, 3], List.replicate 5000 7].foldl (scopeWrite 2048) (scopeClear 2048)).length = 2048 := by
  have hlen : (scopeClear 2048).length = 2048 := List.length_replicate 2048 0
  exact ⟨hlen, (scopeBuffer_invariants 2048 (scopeClear 2048) [[1, 2, 3], List.replicate 5000 7]
    hlen).1⟩

/-- C9: pushing a float buffer with samples in `[-1, 1]` through the PCM
sink (scale by 32767, cast to int16) and back through the PCM source
(divide by 32767) preserves the length and reproduces every sample with
absolute error at most `1/32767`. -/
theorem pcm_roundtrip (data : List ℚ) (h : ∀ x ∈ data, |x| ≤ 1) :
    (loadWavFloat (saveWavPcm data)).length = data.length ∧
    ∀ i, i < data.length →
      |data.getD i 0 - (loadWavFloat (saveWavPcm data)).getD i 0| ≤ 1 / 32767 := by
  constructor
  · simp [loadWavFloat, saveWavPcm]
  · intro i hi
    have hget : (loadWavFloat (saveWavPcm data)).getD i 0 =
        pcmDecode (pcmEncode (data.getD i 0)) := by
      simp [loadWavFloat, saveWavPcm, List.getD, List.getElem?_map,
        List.getElem?_eq_getElem hi]
    rw [hget]
    refine pcm_sample_roundtrip _ (h _ ?_)
    rw [List.getD_eq_getElem _ _ hi]
    exact List.getElem_mem hi

/-- C9 witness: the buffer `[1, -1, 1/2, -1/3, 0]`. -/
theorem pcm_roundtrip_witness :
    (∀ x ∈ ([1, -1, 1/2, -1/3, 0] : List ℚ), |x| ≤ 1) ∧
    (loadWavFloat (saveWavPcm [1, -1, 1/2, -1/3, 0])).length = 5 := by
  have hmem : ∀ x ∈ ([1, -1, 1/2, -1/3, 0] : List ℚ), |x| ≤ 1 := by
    intro x hx
    fin_cases hx <;> norm_num [abs_le]
  exact ⟨hmem, (pcm_roundtrip [1, -1, 1/2, -1/3, 0] hmem).1⟩

/-- C5: `score` is the sum of the host-API weight, 30 per matched
professional keyword, and a 10-point stereo bonus; adding exactly one
keyword match to an otherwise identical descriptor raises the score by
exactly 30 (so strictly). -/
theorem score_decomposition_and_keyword_mono (d d' : DeviceInfo)
    (hapi : d'.api = d.api) (hin : d'.inputs = d.inputs)
    (hkw : keywordMatches d' = keywordMatches d + 1) :
    (∀ e : DeviceInfo, score e =
      apiWeight e + 30 * keywordMatches e + (if 2 ≤ e.inputs then 10 else 0)) ∧
    score d' = score d + 30 ∧ score d < score d' := by
  have hdec : ∀ e : DeviceInfo, score e =
      apiWeight e + 30 * keywordMatches e + (if 2 ≤ e.inputs then 10 else 0) := by
    intro e
    unfold score apiWeight keywordMatches
    dsimp only
    rw [foldl_count_30]
    by_cases hc : 2 ≤ e.inputs <;> simp [hc]
  have hw : apiWeight d' = apiWeight d := by
    unfold apiWeight
    rw [hapi]
  have heq : score d' = score d + 30 := by
    rw [hdec d, hdec d', hw, hkw, hin]
    by_cases hc : 2 ≤ d.inputs <;> simp [hc] <;> ring
  exact ⟨hdec, heq, by omega⟩

/-- C5 witness: a Focusrite device versus the same descriptor without the
keyword. -/
theorem score_decomposition_and_keyword_mono_witness :
    keywordMatches ⟨"Focusrite 2i2", "Windows WASAPI", 2⟩ =
      keywordMatches ⟨"Generic 2i2", "Windows WASAPI", 2⟩ + 1 ∧
    score ⟨"Generic 2i2", "Windows WASAPI", 2⟩ <
      score ⟨"Focusrite 2i2", "Windows WASAPI", 2⟩ :=
  ⟨by decide,
    (score_decomposition_and_keyword_mono
      ⟨"Generic 2i2", "Windows WASAPI", 2⟩
      ⟨"Focusrite 2i2", "Windows WASAPI", 2⟩
      rfl rfl (by decide)).2.2⟩

/-- C6: `stop_monitoring` is idempotent — a second consecutive call
produces the same state as the first, no exception is modelled because
every stream release error is swallowed — and on a state where monitoring
was never started (flag down, no stream handle, level zero, i.e. Idle) it
is a no-op. -/
theorem stopMonitoring_idempotent_noop (s : EngineState) :
    stopMonitoring (stopMonitoring s) = stopMonitoring s ∧
    (s.is_monitoring = false → s.monitoring_stream = none →
      s.current_level = 0 → stopMonitoring s = s) := by
  obtain ⟨sr, ch, ir, rd, idv, odv, asr, ach, ms, lvl, im, ic, cs, ca, cc, sb, cp, cpt, st⟩ := s
  constructor
  · cases ms <;> rfl
  · intro h1 h2 h3
    simp only at h1 h2 h3
    subst h1; subst h2; subst h3
    rfl

/-- C6 witness: the freshly initialized engine state. -/
theorem stopMonitoring_idempotent_noop_witness :
    initState.is_monitoring = false ∧ initState.monitoring_stream = none ∧
    initState.current_level = 0 ∧ stopMonitoring initState = initState :=
  ⟨rfl, rfl, rfl, (stopMonitoring_idempotent_noop initState).2 rfl rfl rfl⟩

/-- C7 counterexample: a device whose query succeeds but whose every
`(rate, channel)` open attempt fails.  `start_monitoring` returns normally
(raised-flag `false`) with no stream and monitoring off — it does not
surface any hard failure, contrary to the claim. -/
theorem startMonitoring_exhaustion_cex :
    (startMonitoring ⟨fun _ => some (48000, 2), fun _ _ _ => false, none, fun _ => false⟩
      (some 0) initState).2 = false ∧
    (startMonitoring ⟨fun _ => some (48000, 2), fun _ _ _ => false, none, fun _ => false⟩
      (some 0) initState).1.is_monitoring = false ∧
    (startMonitoring ⟨fun _ => some (48000, 2), fun _ _ _ => false, none, fun _ => false⟩
      (some 0) initState).1.monitoring_stream = none := by
  refine ⟨rfl, ?_, ?_⟩ <;> rfl

/-- C7 amended: when every `(rate, channel)` candidate pair fails to open,
`start_monitoring` does NOT raise: it returns silently (raised-flag
`false`), having only performed the unconditional `stop_monitoring`, so the
state keeps monitoring off with no monitoring stream; exhaustion is
signalled to the caller of `_scan_and_open_stream` only as the value
`(False, 0, 0)`. -/
theorem startMonitoring_exhaustion_silent (env : Env) (d : ℕ) (s : EngineState)
    (hfail : ∀ sr ch, env.inputOpen d sr ch = false) :
    startMonitoring env (some d) s = (stopMonitoring s, false) ∧
    (startMonitoring env (some d) s).1.is_monitoring = false ∧
    (startMonitoring env (some d) s).1.monitoring_stream = none ∧
    (startMonitoring env (some d) s).2 = false := by
  have hmain : startMonitoring env (some d) s = (stopMonitoring s, false) := by
    unfold startMonitoring
    simp only [resolveDevice]
    rw [scanAndOpenStream_exhaustion env d (stopMonitoring s) hfail]
    rfl
  refine ⟨hmain, ?_, ?_, ?_⟩ <;> rw [hmain, stopMonitoring_eq]

/-- C7 witness: a concrete all-failing environment and the initial state. -/
theorem startMonitoring_exhaustion_silent_witness :
    (∀ sr ch, (⟨fun _ => some (44100, 1), fun _ _ _ => false, none, fun _ => false⟩ :
      Env).inputOpen 0 sr ch = false) ∧
    startMonitoring ⟨fun _ => some (44100, 1), fun _ _ _ => false, none, fun _ => false⟩
      (some 0) initState = (stopMonitoring initState, false) :=
  ⟨fun _ _ => rfl,
    (startMonitoring_exhaustion_silent
      ⟨fun _ => some (44100, 1), fun _ _ _ => false, none, fun _ => false⟩
      0 initState (fun _ _ => rfl)).1⟩

/-- C2 counterexample: every duplex candidate rate fails but the input
device reopens fine.  `start_recording` raises (flag `true`) AND re-enables
monitoring itself: the final state is Monitoring (flag up, monitoring
stream open), not Idle, so monitoring IS auto-resumed by the engine,
contrary to the claim. -/
theorem startRecording_failure_cex :
    (startRecording ⟨fun _ => some (48000, 2), fun _ _ _ => true, none, fun _ => false⟩
      { initState with input_device := some 0 }).2 = true ∧
    (startRecording ⟨fun _ => some (48000, 2), fun _ _ _ => true, none, fun _ => false⟩
      { initState with input_device := some 0 }).1.is_monitoring = true ∧
    (startRecording ⟨fun _ => some (48000, 2), fun _ _ _ => true, none, fun _ => false⟩
      { initState with input_device := some 0 }).1.monitoring_stream = some (44100, 1) := by
  refine ⟨?_, ?_, ?_⟩ <;> rfl

/-- C2 amended: when `start_recording` exhausts every duplex candidate it
rolls back the duplex-session state — recording flag cleared, no duplex
stream handle, no armed click — but then auto-resumes monitoring by calling
`start_monitoring()` itself before raising, so the final state is exactly
the rolled-back state passed through `start_monitoring` (which may be
Monitoring, not Idle, when the input device reopens). -/
theorem startRecording_exhaustion_rollback (env : Env) (s : EngineState)
    (hrec : s.is_recording = false)
    (hfail : ∀ sr, env.duplexOpen sr = false) :
    startRecording env s =
      ((startMonitoring env none
        { stopMonitoring s with
            recording_data := []
            is_recording := false
            click_to_play := none
            click_ptr := 0
            stream := none }).1, true) ∧
    (startRecording env s).1.is_recording = false ∧
    (startRecording env s).1.stream = none ∧
    (startRecording env s).1.click_to_play = none ∧
    (startRecording env s).2 = true := by
  have hfind : (duplexCandidates env.queryOutputNative (stopMonitoring s).active_sr).find?
      (fun sr => env.duplexOpen sr) = none :=
    List.find?_eq_none.2 fun sr _ => by simp [hfail]
  have hmain : startRecording env s =
      ((startMonitoring env none
        { stopMonitoring s with
            recording_data := []
            is_recording := false
            click_to_play := none
            click_ptr := 0
            stream := none }).1, true) := by
    unfold startRecording
    rw [if_neg (by simp [hrec])]
    simp only [hfind]
  obtain ⟨h1, _, h3, _, h5, _⟩ := startMonitoring_frame env none
    { stopMonitoring s with
        recording_data := []
        is_recording := false
        click_to_play := none
        click_ptr := 0
        stream := none }
  exact ⟨hmain, by rw [hmain]; exact h1, by rw [hmain]; exact h5 rfl,
    by rw [hmain]; exact h3, by rw [hmain]⟩

/-- C2 witness: an environment where the duplex open and the monitoring
reopen both fail, from the initial state. -/
theorem startRecording_exhaustion_rollback_witness :
    initState.is_recording = false ∧
    (∀ sr, (⟨fun _ => none, fun _ _ _ => false, none, fun _ => false⟩ :
      Env).duplexOpen sr = false) ∧
    (startRecording ⟨fun _ => none, fun _ _ _ => false, none, fun _ => false⟩
      initState).2 = true :=
  ⟨rfl, fun _ => rfl,
    (startRecording_exhaustion_rollback
      ⟨fun _ => none, fun _ _ _ => false, none, fun _ => false⟩
      initState rfl (fun _ => rfl)).2.2.2.2⟩

/-- C10: `_regenerate_clicks` replaces exactly the three click buffers,
regenerating them at the active hardware sample rate (when that rate is
nonzero), and leaves every other field — in particular the configured
sample-rate field, which it temporarily overwrites and then restores —
unchanged. -/
theorem regenerateClicks_frame (ν1 ν2 ν3 : ℕ → ℝ) (s : EngineState)
    (h : s.active_sr ≠ 0) :
    (regenerateClicks ν1 ν2 ν3 s).sample_rate = s.sample_rate ∧
    (regenerateClicks ν1 ν2 ν3 s).channels = s.channels ∧
    (regenerateClicks ν1 ν2 ν3 s).is_recording = s.is_recording ∧
    (regenerateClicks ν1 ν2 ν3 s).recording_data = s.recording_data ∧
    (regenerateClicks ν1 ν2 ν3 s).input_device = s.input_device ∧
    (regenerateClicks ν1 ν2 ν3 s).output_device = s.output_device ∧
    (regenerateClicks ν1 ν2 ν3 s).active_sr = s.active_sr ∧
    (regenerateClicks ν1 ν2 ν3 s).active_channels = s.active_channels ∧
    (regenerateClicks ν1 ν2 ν3 s).monitoring_stream = s.monitoring_stream ∧
    (regenerateClicks ν1 ν2 ν3 s).current_level = s.current_level ∧
    (regenerateClicks ν1 ν2 ν3 s).is_monitoring = s.is_monitoring ∧
    (regenerateClicks ν1 ν2 ν3 s).is_closing = s.is_closing ∧
    (regenerateClicks ν1 ν2 ν3 s).scope_buffer = s.scope_buffer ∧
    (regenerateClicks ν1 ν2 ν3 s).click_to_play = s.click_to_play ∧
    (regenerateClicks ν1 ν2 ν3 s).click_ptr = s.click_ptr ∧
    (regenerateClicks ν1 ν2 ν3 s).stream = s.stream ∧
    (regenerateClicks ν1 ν2 ν3 s).click_sample =
      professionalClick 1500 0.012 0.25 s.active_sr ν1 ∧
    (regenerateClicks ν1 ν2 ν3 s).click_accent =
      professionalClick 2000 0.012 0.35 s.active_sr ν2 ∧
    (regenerateClicks ν1 ν2 ν3 s).click_countin =
      professionalClick 1000 0.012 0.20 s.active_sr ν3 := by
  unfold regenerateClicks
  rw [if_pos h]
  exact ⟨rfl, rfl, rfl, rfl, rfl, rfl, rfl, rfl, rfl, rfl, rfl, rfl, rfl, rfl,
    rfl, rfl, rfl, rfl, rfl⟩

/-- C10 witness: the initial state (active rate 44100 ≠ 0). -/
theorem regenerateClicks_frame_witness :
    initState.active_sr ≠ 0 ∧
    (regenerateClicks (fun _ => 0) (fun _ => 0) (fun _ => 0) initState).sample_rate =
      initState.sample_rate :=
  ⟨by decide,
    (regenerateClicks_frame (fun _ => 0) (fun _ => 0) (fun _ => 0) initState
      (by decide)).1⟩

/-- C1: for every armed click buffer and cursor position, the duplex output
path copies `min (remaining, block_size)` click samples into every output
channel per callback, advances the read cursor by that amount, clears the
armed click exactly when the cursor reaches the buffer length, and emits
pure silence whenever no click is armed; in particular, for a buffer of
length 600 with `block_size = 256` the cursor stands at 512 after two
callbacks, the third callback clears the click, and the four callbacks emit
samples `[0:256)`, `[256:512)`, the remaining 88 then silence, then a full
block of silence. -/
theorem duplexClick_behavior (c : List ℝ) (p bs nch : ℕ)
    (hp : p ≤ c.length) :
    clickOut bs nch ⟨some c, p⟩ =
      ((List.range bs).map fun i =>
        if i < min bs (c.length - p) then List.replicate nch (c.getD (p + i) 0)
        else List.replicate nch 0,
       if p + min bs (c.length - p) = c.length then ⟨none, 0⟩
       else ⟨some c, p + min bs (c.length - p)⟩) ∧
    (∀ q frames, clickOut frames nch ⟨none, q⟩ =
      (List.replicate frames (List.replicate nch 0), ⟨none, q⟩)) ∧
    (c.length = 600 →
      (clickOutN 256 nch 2 ⟨some c, 0⟩).2 = ⟨some c, 512⟩ ∧
      (clickOutN 256 nch 3 ⟨some c, 0⟩).2 = ⟨none, 0⟩ ∧
      clickOutN 256 nch 4 ⟨some c, 0⟩ =
        ([(List.range 256).map fun i => List.replicate nch (c.getD i 0),
          (List.range 256).map fun i => List.replicate nch (c.getD (256 + i) 0),
          (List.range 256).map fun i =>
            if i < 88 then List.replicate nch (c.getD (512 + i) 0)
            else List.replicate nch 0,
          List.replicate 256 (List.replicate nch 0)], ⟨none, 0⟩)) := by
  refine ⟨clickOut_armed bs nch c p hp, fun q frames => rfl, fun hL => ?_⟩
  have e1 : clickOut 256 nch ⟨some c, 0⟩ =
      ((List.range 256).map fun i => List.replicate nch (c.getD i 0),
       ⟨some c, 256⟩) := by
    rw [clickOut_armed 256 nch c 0 (Nat.zero_le _)]
    have hm : min 256 (c.length - 0) = 256 := by rw [hL]; omega
    rw [hm, if_neg (by omega)]
    exact congrArg₂ Prod.mk
      (List.map_congr_left fun i hi => by
        rw [if_pos (List.mem_range.1 hi), Nat.zero_add]) rfl
  have e2 : clickOut 256 nch ⟨some c, 256⟩ =
      ((List.range 256).map fun i => List.replicate nch (c.getD (256 + i) 0),
       ⟨some c, 512⟩) := by
    rw [clickOut_armed 256 nch c 256 (by omega)]
    have hm : min 256 (c.length - 256) = 256 := by rw [hL]; omega
    rw [hm, if_neg (by omega)]
    exact congrArg₂ Prod.mk
      (List.map_congr_left fun i hi => by rw [if_pos (List.mem_range.1 hi)]) rfl
  have e3 : clickOut 256 nch ⟨some c, 512⟩ =
      ((List.range 256).map fun i =>
        if i < 88 then List.replicate nch (c.getD (512 + i) 0)
        else List.replicate nch 0,
       ⟨none, 0⟩) := by
    rw [clickOut_armed 256 nch c 512 (by omega)]
    have hm : min 256 (c.length - 512) = 88 := by rw [hL]; omega
    rw [hm, if_pos (by omega)]
  have e4 : clickOut 256 nch ⟨none, 0⟩ =
      (List.replicate 256 (List.replicate nch 0), ⟨none, 0⟩) := rfl
  have n1z : clickOutN 256 nch 1 ⟨none, 0⟩ =
      ([List.replicate 256 (List.replicate nch 0)], ⟨none, 0⟩) :=
    (clickOutN_succ 256 nch 0 _ _ _ e4).trans rfl
  have n1a : clickOutN 256 nch 1 ⟨some c, 512⟩ =
      ([(List.range 256).map fun i =>
          if i < 88 then List.replicate nch (c.getD (512 + i) 0)
          else List.replicate nch 0], ⟨none, 0⟩) :=
    (clickOutN_succ 256 nch 0 _ _ _ e3).trans rfl
  have n1b : clickOutN 256 nch 1 ⟨some c, 256⟩ =
      ([(List.range 256).map fun i => List.replicate nch (c.getD (256 + i) 0)],
       ⟨some c, 512⟩) :=
    (clickOutN_succ 256 nch 0 _ _ _ e2).trans rfl
  have n2a : clickOutN 256 nch 2 ⟨some c, 512⟩ =
      ([(List.range 256).map fun i =>
          if i < 88 then List.replicate nch (c.getD (512 + i) 0)
          else List.replicate nch 0,
        List.replicate 256 (List.replicate nch 0)], ⟨none, 0⟩) :=
    (clickOutN_succ 256 nch 1 _ _ _ e3).trans (by rw [n1z])
  have n2b : clickOutN 256 nch 2 ⟨some c, 256⟩ =
      ([(List.range 256).map fun i => List.replicate nch (c.getD (256 + i) 0),
        (List.range 256).map fun i =>
          if i < 88 then List.replicate nch (c.getD (512 + i) 0)
          else List.replicate nch 0], ⟨none, 0⟩) :=
    (clickOutN_succ 256 nch 1 _ _ _ e2).trans (by rw [n1a])
  have n2c : clickOutN 256 nch 2 ⟨some c, 0⟩ =
      ([(List.range 256).map fun i => List.replicate nch (c.getD i 0),
        (List.range 256).map fun i => List.replicate nch (c.getD (256 + i) 0)],
       ⟨some c, 512⟩) :=
    (clickOutN_succ 256 nch 1 _ _ _ e1).trans (by rw [n1b])
  have n3a : clickOutN 256 nch 3 ⟨some c, 256⟩ =
      ([(List.range 256).map fun i => List.replicate nch (c.getD (256 + i) 0),
        (List.range 256).map fun i =>
          if i < 88 then List.replicate nch (c.getD (512 + i) 0)
          else List.replicate nch 0,
        List.replicate 256 (List.replicate nch 0)], ⟨none, 0⟩) :=
    (clickOutN_succ 256 nch 2 _ _ _ e2).trans (by rw [n2a])
  have n3b : clickOutN 256 nch 3 ⟨some c, 0⟩ =
      ([(List.range 256).map fun i => List.replicate nch (c.getD i 0),
        (List.range 256).map fun i => List.replicate nch (c.getD (256 + i) 0),
        (List.range 256).map fun i =>
          if i < 88 then List.replicate nch (c.getD (512 + i) 0)
          else List.replicate nch 0], ⟨none, 0⟩) :=
    (clickOutN_succ 256 nch 2 _ _ _ e1).trans (by rw [n2b])
  have n4 : clickOutN 256 nch 4 ⟨some c, 0⟩ =
      ([(List.range 256).map fun i => List.replicate nch (c.getD i 0),
        (List.range 256).map fun i => List.replicate nch (c.getD (256 + i) 0),
        (List.range 256).map fun i =>
          if i < 88 then List.replicate nch (c.getD (512 + i) 0)
          else List.replicate nch 0,
        List.replicate 256 (List.replicate nch 0)], ⟨none, 0⟩) :=
    (clickOutN_succ 256 nch 3 _ _ _ e1).trans (by rw [n3a])
  exact ⟨by rw [n2c], by rw [n3b], n4⟩

/-- C1 witness: a constant click buffer of length 600 on stereo output. -/
theorem duplexClick_behavior_witness :
    (0 ≤ (List.replicate 600 (1 : ℝ)).length ∧
      (List.replicate 600 (1 : ℝ)).length = 600) ∧
    (clickOutN 256 2 3 ⟨some (List.replicate 600 (1 : ℝ)), 0⟩).2 = ⟨none, 0⟩ :=
  ⟨⟨Nat.zero_le _, List.length_replicate 600 1⟩,
    ((duplexClick_behavior (List.replicate 600 1) 0 256 2 (Nat.zero_le _)).2.2
      (List.length_replicate 600 1)).2.1⟩

/-- C3 amended: for volume `v > 0`, buffers of at least 20 samples
(`attack ≥ 1`, `release ≥ 2`) and a nonzero pre-normalization peak, the
generated click has length `⌊r·d⌋` (truncation, NOT `round(r·d)`), its peak
absolute amplitude is exactly `v` by normalization, its first sample is
exactly 0 (the attack envelope starts at 0), and its last sample is bounded
by the release tail `0.6·e⁻⁵ < 1/100` of full scale (times the noise-bounded
signal magnitude and the normalization ratio). -/
theorem professionalClick_spec (f : ℝ) (d : ℚ) (v B : ℝ) (r : ℕ) (ν : ℕ → ℝ)
    (hv : 0 < v) (hn : 20 ≤ nSamples r d)
    (hM : 0 < clickPeak f d v r ν) (hB : ∀ i, |ν i| ≤ B) :
    ((professionalClick f d v r ν).length = nSamples r d ∧
      (nSamples r d : ℤ) = ⌊(r : ℚ) * d⌋) ∧
    ((professionalClick f d v r ν).map fun x => |x|).foldr max 0 = v ∧
    (professionalClick f d v r ν).getD 0 0 = 0 ∧
    (|(professionalClick f d v r ν).getD (nSamples r d - 1) 0| ≤
      (1 + 0.05 * B) * (0.6 * Real.exp (-5)) * v * v / clickPeak f d v r ν ∧
      (0.6 : ℝ) * Real.exp (-5) < 1 / 100) := by
  have hclick : professionalClick f d v r ν =
      (List.range (nSamples r d)).map
        fun i => clickRaw f d v r ν i / clickPeak f d v r ν * v := by
    unfold professionalClick
    dsimp only
    rw [if_pos hM]
  have hA : 1 ≤ clickAttack (nSamples r d) := by
    unfold clickAttack
    omega
  have hRS : clickRelStart (nSamples r d) ≤ nSamples r d - 1 := by
    unfold clickRelStart
    omega
  have hRS0 : ¬ clickRelStart (nSamples r d) ≤ 0 := by
    unfold clickRelStart
    omega
  have hm2 : 2 ≤ nSamples r d - clickRelStart (nSamples r d) := by
    unfold clickRelStart
    omega
  have env0 : clickEnv (nSamples r d) 0 = 0 := by
    unfold clickEnv
    dsimp only
    rw [if_neg hRS0, if_pos (by omega)]
    unfold lin01
    split
    · rfl
    · simp
  have hlin : lin01 (nSamples r d - clickRelStart (nSamples r d))
      (nSamples r d - 1 - clickRelStart (nSamples r d)) = 1 := by
    unfold lin01
    rw [if_neg (by omega)]
    have e : nSamples r d - 1 - clickRelStart (nSamples r d)
        = (nSamples r d - clickRelStart (nSamples r d)) - 1 := by omega
    rw [e, Nat.cast_sub (by omega), Nat.cast_one]
    have h2 : (2 : ℝ) ≤ ((nSamples r d - clickRelStart (nSamples r d) : ℕ) : ℝ) := by
      exact_mod_cast hm2
    exact div_self (by linarith)
  have envLast : clickEnv (nSamples r d) (nSamples r d - 1)
      = 0.6 * Real.exp (-5) := by
    unfold clickEnv
    dsimp only
    rw [if_pos hRS, hlin]
    norm_num
  have hfl : 0 ≤ ⌊(r : ℚ) * d⌋ := by
    have hn' := hn
    unfold nSamples at hn'
    omega
  have hb : ((professionalClick f d v r ν).map fun x => |x|).foldr max 0 = v := by
    rw [hclick, List.map_map]
    have hcong : (List.range (nSamples r d)).map
        ((fun x => |x|) ∘ fun i => clickRaw f d v r ν i / clickPeak f d v r ν * v)
        = ((List.range (nSamples r d)).map fun i => |clickRaw f d v r ν i|).map
            fun x => x * (v / clickPeak f d v r ν) := by
      rw [List.map_map]
      refine List.map_congr_left fun i _ => ?_
      show |clickRaw f d v r ν i / clickPeak f d v r ν * v|
          = |clickRaw f d v r ν i| * (v / clickPeak f d v r ν)
      rw [abs_mul, abs_div, abs_of_pos hM, abs_of_pos hv]
      ring
    rw [hcong, foldr_max_map_mul _ _ (by positivity)]
    show clickPeak f d v r ν * (v / clickPeak f d v r ν) = v
    rw [mul_comm]
    exact div_mul_cancel₀ v (ne_of_gt hM)
  have hc0 : (professionalClick f d v r ν).getD 0 0 = 0 := by
    rw [hclick, getD_map_range _ 0 (by omega)]
    unfold clickRaw
    rw [env0]
    simp
  have hsig : |clickSignal f d (nSamples r d) ν (nSamples r d - 1)| ≤ 1 + 0.05 * B := by
    unfold clickSignal
    refine (abs_add _ _).trans ?_
    have h1 := Real.abs_sin_le_one
      (f * ((d : ℝ) * ((nSamples r d - 1 : ℕ) : ℝ) / ((nSamples r d : ℕ) : ℝ)) * 2 * Real.pi)
    have h2 : |ν (nSamples r d - 1) * 0.05| ≤ B * 0.05 := by
      rw [abs_mul, show |(0.05 : ℝ)| = 0.05 by norm_num]
      nlinarith [hB (nSamples r d - 1), abs_nonneg (ν (nSamples r d - 1))]
    calc _ ≤ 1 + B * 0.05 := add_le_add h1 h2
      _ = 1 + 0.05 * B := by ring
  have hd : |(professionalClick f d v r ν).getD (nSamples r d - 1) 0| ≤
      (1 + 0.05 * B) * (0.6 * Real.exp (-5)) * v * v / clickPeak f d v r ν := by
    rw [hclick, getD_map_range _ _ (by omega)]
    unfold clickRaw
    rw [envLast]
    have habs : |clickSignal f d (nSamples r d) ν (nSamples r d - 1)
          * (0.6 * Real.exp (-5)) * v / clickPeak f d v r ν * v|
        = |clickSignal f d (nSamples r d) ν (nSamples r d - 1)|
          * (0.6 * Real.exp (-5)) * v * v / clickPeak f d v r ν := by
      rw [abs_mul, abs_div, abs_mul, abs_mul, abs_of_pos hv, abs_of_pos hM,
        abs_of_pos (show (0 : ℝ) < 0.6 * Real.exp (-5) by positivity)]
      ring
    rw [habs]
    gcongr
  refine ⟨⟨professionalClick_length f d v r ν, ?_⟩, hb, hc0, hd, releaseTail_small⟩
  unfold nSamples
  exact Int.toNat_of_nonneg hfl

/-- C3 witness: `f = 0`, `d = 0.1`, `v = 1`, `r = 1000` (100 samples),
constant noise 100 (so the pre-normalization peak is at least 3 > 0). -/
theorem professionalClick_spec_witness :
    ((0 : ℝ) < 1 ∧ 20 ≤ nSamples 1000 (1/10) ∧
      0 < clickPeak 0 (1/10) 1 1000 (fun _ => 100) ∧
      (∀ i : ℕ, |(fun _ => (100 : ℝ)) i| ≤ 100)) ∧
    (professionalClick 0 (1/10) 1 1000 fun _ => 100).length = nSamples 1000 (1/10) := by
  have hn100 : nSamples 1000 (1/10) = 100 := by
    unfold nSamples
    rw [show ⌊((1000 : ℕ) : ℚ) * (1/10)⌋ = 100 by norm_num]
    rfl
  have hsig30 : clickSignal 0 (1/10) 100 (fun _ => 100) 30 = 5 := by
    unfold clickSignal
    norm_num
  have henv30 : clickEnv 100 30 = 0.6 := by
    unfold clickEnv clickAttack clickDecay clickRelStart
    dsimp only
    rw [if_neg (by norm_num), if_neg (by norm_num), if_neg (by norm_num)]
  have h30 : clickRaw 0 (1/10) 1 1000 (fun _ => 100) 30 = 3 := by
    unfold clickRaw
    rw [hn100, hsig30, henv30]
    norm_num
  have hMpos : 0 < clickPeak 0 (1/10) 1 1000 (fun _ => 100) := by
    have hmem : |clickRaw 0 (1/10) 1 1000 (fun _ => 100) 30| ∈
        (List.range (nSamples 1000 (1/10))).map
          fun i => |clickRaw 0 (1/10) 1 1000 (fun _ => 100) i| :=
      List.mem_map.2 ⟨30, List.mem_range.2 (by rw [hn100]; norm_num), rfl⟩
    have hle := le_foldr_max _ _ hmem
    have h3 : |clickRaw 0 (1/10) 1 1000 (fun _ => 100) 30| = 3 := by
      rw [h30]
      norm_num
    calc (0 : ℝ) < 3 := by norm_num
      _ = |clickRaw 0 (1/10) 1 1000 (fun _ => 100) 30| := h3.symm
      _ ≤ _ := hle
  have hBconst : ∀ i : ℕ, |(fun _ => (100 : ℝ)) i| ≤ 100 := fun i => by norm_num
  exact ⟨⟨by norm_num, by rw [hn100]; norm_num, hMpos, hBconst⟩,
    (professionalClick_spec 0 (1/10) 1 100 1000 (fun _ => 100)
      (by norm_num) (by rw [hn100]; norm_num) hMpos hBconst).1.1⟩

end VocalParam

